import Mathlib

/-!
# tracerdiff: the block-comparison loop

A shallow embedding of `polygon/tracerdiff/tracerdiff.go`: the per-block
comparison of `checkBlock`, its timing accumulators, and the descending loop
of `main`.

Go pointers are embedded as `Option` (`none` is the nil pointer), slices as
`List`, `int64` and `time.Duration` as `Int` reduced with `wrapInt64`.
A run is described by what it did before it ended (`trace`) and by how it
ended (`Outcome`).
-/

set_option autoImplicit false

namespace Tracerdiff

/-! ## Data model -/

/-- Modelled from the spec: the Rosetta `Currency` record (declared in the
Rosetta SDK, outside this repository): the currency half of an amount. -/
structure Currency where
  Symbol : String
  Decimals : Int
  deriving DecidableEq, Repr

/-- Modelled from the spec: the Rosetta `Amount` record (declared in the
Rosetta SDK, outside this repository): "an amount (value + currency)". `Value` is a
decimal string; `Currency` is a pointer. -/
structure Amount where
  Value : String
  Currency : Option Tracerdiff.Currency
  deriving DecidableEq, Repr

/-- Modelled from the spec: the Rosetta `OperationIdentifier` record (declared
in the Rosetta SDK, outside this repository). -/
structure OperationIdentifier where
  Index : Int
  NetworkIndex : Option Int
  deriving DecidableEq, Repr

/-- Modelled from the spec: the Rosetta `AccountIdentifier` record (declared in
the Rosetta SDK, outside this repository). -/
structure AccountIdentifier where
  Address : String
  deriving DecidableEq, Repr

/-- Modelled from the spec: the Rosetta `Operation` record (declared in the
Rosetta SDK, outside this repository): "a structured record with at least an amount
(value + currency) and type/status metadata". `Status`, `Account` and
`Amount` are pointers; `RelatedOperations` is a slice whose nil value is
`none`; `Type_` is the Go field `Type`. The free-form metadata map of the SDK
record is left out. -/
structure Operation where
  OperationIdentifier : Option Tracerdiff.OperationIdentifier
  RelatedOperations : Option (List Tracerdiff.OperationIdentifier)
  Type_ : String
  Status : Option String
  Account : Option AccountIdentifier
  Amount : Option Tracerdiff.Amount
  deriving DecidableEq, Repr

/-- Modelled from the spec: the Rosetta `TransactionIdentifier` record
(declared in the Rosetta SDK, outside this repository). -/
structure TransactionIdentifier where
  Hash : String
  deriving DecidableEq, Repr

/-- Modelled from the spec: the Rosetta `Transaction` record (declared in the
Rosetta SDK, outside this repository): "contains an ordered sequence of Operation
entries". `Operations` is a slice of operation pointers. -/
structure Transaction where
  TransactionIdentifier : Option Tracerdiff.TransactionIdentifier
  Operations : List (Option Operation)
  deriving DecidableEq, Repr

/-- Modelled from the spec: the Rosetta `BlockIdentifier` record (declared in
the Rosetta SDK, outside this repository). -/
structure BlockIdentifier where
  Index : Int
  Hash : String
  deriving DecidableEq, Repr

/-- Modelled from the spec: the Rosetta `Block` record (declared in the Rosetta
SDK, outside this repository): "contains an ordered sequence of Transaction entries".
`Transactions` is a slice of transaction pointers. -/
structure Block where
  BlockIdentifier : Option Tracerdiff.BlockIdentifier
  ParentBlockIdentifier : Option Tracerdiff.BlockIdentifier
  Timestamp : Int
  Transactions : List (Option Transaction)
  deriving DecidableEq, Repr

/-- Modelled from the spec: the Rosetta `PartialBlockIdentifier` record
(declared in the Rosetta SDK, outside this repository): "a reference to a block, which
may be specified by index or by hash". -/
structure PartialBlockIdentifier where
  Index : Option Int
  Hash : Option String
  deriving DecidableEq, Repr

/-! ## Runs -/

/-- A runtime fault of the Go program (a Go runtime error, not `log.Fatalf`). -/
inductive Fault
  | nilDereference
  | indexOutOfRange
  deriving DecidableEq, Repr

/-- How a piece of the program ends: it falls through (`ok`), it calls
`log.Fatalf` with a message (`fatal`), or the Go runtime stops it (`fault`). -/
inductive Outcome
  | ok
  | fatal (msg : String)
  | fault (f : Fault)
  deriving DecidableEq, Repr

/-- The three comparisons of `checkBlock`: `len(b1.Transactions) !=
len(b2.Transactions)`, `len(ops1) != len(ops2)` in transaction `i`, and
`assert.Equal(t, op1, op2)` at position `(i, j)`. -/
inductive Cmp
  | transactionCounts
  | opCounts (i : Nat)
  | ops (i j : Nat)
  deriving DecidableEq, Repr

/-- What the program does, in order: the `fmt.Printf` lines, the two `Block`
requests, and the comparisons it evaluates. -/
inductive Event
  | printChecking (blockNum : Int)
  | block1 (id : PartialBlockIdentifier)
  | block2 (id : PartialBlockIdentifier)
  | printRequestTimes (elapsed1 elapsed2 total1 total2 : Int)
  | printWarningC1 (blockNum : Int)
  | printWarningC2 (blockNum : Int)
  | compare (c : Cmp)
  deriving DecidableEq, Repr

/-- The events of a piece of the program, up to the point where it ended, and
the way it ended. -/
structure Run (ε : Type) where
  trace : List ε
  outcome : Outcome
  deriving DecidableEq, Repr

/-- Sequencing: `k` runs only when `r` fell through. -/
def Run.andThen {ε : Type} (r k : Run ε) : Run ε :=
  match r.outcome with
  | Outcome.ok => ⟨r.trace ++ k.trace, k.outcome⟩
  | o => ⟨r.trace, o⟩

/-! ## The comparison of `checkBlock` (source lines 111-130) -/

/-- The expression `op.Amount.Value` for an operation pointer `op`: `none` when
evaluating it dereferences a nil pointer. -/
def amountValue (op : Option Operation) : Option String :=
  match op with
  | none => none
  | some o =>
    match o.Amount with
    | none => none
    | some a => some a.Value

/-- The call `log.Fatalf("ops not equal %v %v", op1.Amount.Value, op2.Amount.Value)`:
the arguments are evaluated first, then the message is formatted (`%v` of a Go
string is the string). -/
def opsNotEqual (op1 op2 : Option Operation) : Outcome :=
  match amountValue op1, amountValue op2 with
  | some v1, some v2 => Outcome.fatal ("ops not equal " ++ v1 ++ " " ++ v2)
  | _, _ => Outcome.fault Fault.nilDereference

/-- The inner loop `for j, op1 := range ops1` of transaction `i`, from index
`j` on. `assert.Equal(t, op1, op2)` is deep equality of the two operation
pointers. -/
def opsLoop (i : Nat) (ops2 : List (Option Operation)) :
    Nat → List (Option Operation) → Run Cmp
  | _, [] => ⟨[], Outcome.ok⟩
  | j, op1 :: rest =>
    match ops2[j]? with
    | none => ⟨[], Outcome.fault Fault.indexOutOfRange⟩
    | some op2 =>
      if op1 = op2 then
        Run.andThen ⟨[Cmp.ops i j], Outcome.ok⟩ (opsLoop i ops2 (j + 1) rest)
      else
        ⟨[Cmp.ops i j], opsNotEqual op1 op2⟩

/-- The body of the outer loop for transaction index `i`, after
`tx2 := b2.Transactions[i]`: `tx1.Operations` and `tx2.Operations` dereference
the two transaction pointers. -/
def txBody (i : Nat) (tx1 tx2 : Option Transaction) : Run Cmp :=
  match tx1, tx2 with
  | some t1, some t2 =>
    if t1.Operations.length ≠ t2.Operations.length then
      ⟨[Cmp.opCounts i], Outcome.fatal "op counts differ"⟩
    else
      Run.andThen ⟨[Cmp.opCounts i], Outcome.ok⟩
        (opsLoop i t2.Operations 0 t1.Operations)
  | _, _ => ⟨[], Outcome.fault Fault.nilDereference⟩

/-- The outer loop `for i, tx1 := range b1.Transactions`, from index `i` on. -/
def txLoop (txs2 : List (Option Transaction)) :
    Nat → List (Option Transaction) → Run Cmp
  | _, [] => ⟨[], Outcome.ok⟩
  | i, tx1 :: rest =>
    match txs2[i]? with
    | none => ⟨[], Outcome.fault Fault.indexOutOfRange⟩
    | some tx2 => Run.andThen (txBody i tx1 tx2) (txLoop txs2 (i + 1) rest)

/-- Lines 111-130 of `checkBlock`: the transaction-count check, then the two
nested loops. -/
def compareBlocks (b1 b2 : Block) : Run Cmp :=
  if b1.Transactions.length ≠ b2.Transactions.length then
    ⟨[Cmp.transactionCounts], Outcome.fatal "transaction counts differ"⟩
  else
    Run.andThen ⟨[Cmp.transactionCounts], Outcome.ok⟩
      (txLoop b2.Transactions 0 b1.Transactions)

/-! ## Machine integers and time -/

/-- Two's-complement reduction of an integer to `int64`. -/
def wrapInt64 (x : Int) : Int := (x + 2 ^ 63) % 2 ^ 64 - 2 ^ 63

/-- The largest `time.Duration`. -/
def maxDuration : Int := 2 ^ 63 - 1

/-- The smallest `time.Duration`. -/
def minDuration : Int := -(2 ^ 63)

/-- The constant `time.Second`, in nanoseconds. -/
def Second : Int := 1000000000

/-- The method `Time.Sub` of the Go standard library on two readings of the
monotonic clock (nanoseconds, `int64`): the difference, saturated at the
largest and smallest `Duration`. -/
def Sub (t u : Int) : Int :=
  let d := wrapInt64 (t - u)
  if d < 0 ∧ t > u then maxDuration
  else if d > 0 ∧ t < u then minDuration
  else d

/-! ## `checkBlock` and `main` -/

/-- What the program is run against: the two clients (`c1.Block`, `c2.Block`:
a block or an error, for a block identifier) and the clock (`now k` is the
reading, in nanoseconds, that the `k`-th call of `time.Now()` returns). -/
structure Env where
  c1 : PartialBlockIdentifier → Except String Block
  c2 : PartialBlockIdentifier → Except String Block
  now : Nat → Int

/-- The package-level accumulators `total1` and `total2`, and the number of
calls of `time.Now()` made so far. -/
structure RunState where
  total1 : Int
  total2 : Int
  ticks : Nat
  deriving DecidableEq, Repr

/-- The state the process starts in: `var total1, total2 time.Duration`. -/
def RunState.init : RunState := ⟨0, 0, 0⟩

/-- The function `checkBlock(c1, c2, blockNum)`, with `*blockNum` passed by
value. -/
def checkBlock (env : Env) (blockNum : Int) (st : RunState) : Run Event × RunState :=
  let id : PartialBlockIdentifier := ⟨some blockNum, none⟩
  let start := env.now st.ticks
  match env.c1 id with
  | Except.error err =>
    (⟨[Event.printChecking blockNum, Event.block1 id],
      Outcome.fatal ("Failed to get block with client 1: " ++ err)⟩,
     ⟨st.total1, st.total2, st.ticks + 1⟩)
  | Except.ok b1 =>
    let end_ := env.now (st.ticks + 1)
    let elapsed1 := Sub end_ start
    let total1 := wrapInt64 (st.total1 + elapsed1)
    match env.c2 id with
    | Except.error err =>
      (⟨[Event.printChecking blockNum, Event.block1 id, Event.block2 id],
        Outcome.fatal ("Failed to get block with client 2: " ++ err)⟩,
       ⟨total1, st.total2, st.ticks + 2⟩)
    | Except.ok b2 =>
      let elapsed2 := Sub (env.now (st.ticks + 2)) end_
      let total2 := wrapInt64 (st.total2 + elapsed2)
      let warn1 := if elapsed1 > Second * 2 then [Event.printWarningC1 blockNum] else []
      let warn2 := if elapsed2 > Second * 2 then [Event.printWarningC2 blockNum] else []
      let r := compareBlocks b1 b2
      (⟨[Event.printChecking blockNum, Event.block1 id, Event.block2 id,
          Event.printRequestTimes elapsed1 elapsed2 total1 total2]
          ++ warn1 ++ warn2 ++ r.trace.map Event.compare,
        r.outcome⟩,
       ⟨total1, total2, st.ticks + 3⟩)

/-- The loop `for i := 0; i < n; i++ { checkBlock(c1, c2, blockNum); *blockNum-- }`
with `n` iterations left; a fatal exit or a fault inside `checkBlock` ends the
process. -/
def loop (env : Env) : Nat → Int → RunState → Run Event × RunState
  | 0, _, st => (⟨[], Outcome.ok⟩, st)
  | n + 1, blockNum, st =>
    let step := checkBlock env blockNum st
    match step.1.outcome with
    | Outcome.ok =>
      let more := loop env n (wrapInt64 (blockNum - 1)) step.2
      (⟨step.1.trace ++ more.1.trace, more.1.outcome⟩, more.2)
    | o => (⟨step.1.trace, o⟩, step.2)

/-- The iteration bound of the loop in `main`. -/
def iterationCount : Nat := 10000

/-- What the setup part of `main` meets: the `--cpuprofile` flag and, for each
setup call (`os.Create`, `pprof.StartCPUProfile`,
`configuration.LoadConfiguration`, the two `polygon.NewClient`), the error it
returns, if any. -/
structure Startup where
  cpuprofile : String
  createErr : Option String
  startCPUProfileErr : Option String
  loadConfigurationErr : Option String
  newClient1Err : Option String
  newClient2Err : Option String

/-- The setup part of `main` (source lines 24-70) for the flag value `block`:
the message of the `log.Fatal` call that ends it, if one does. -/
def startup (su : Startup) (block : Int) : Option String :=
  let profile : Option String :=
    if su.cpuprofile ≠ "" then
      match su.createErr with
      | some err => some ("could not create CPU profile: " ++ err)
      | none =>
        match su.startCPUProfileErr with
        | some err => some ("could not start CPU profile: " ++ err)
        | none => none
    else none
  match profile with
  | some msg => some msg
  | none =>
    if block = -1 then some "Must specify a --block"
    else
      match su.loadConfigurationErr with
      | some err => some ("Couldn't load configuration: " ++ err)
      | none =>
        match su.newClient1Err with
        | some err => some ("Couldn't create default client: " ++ err)
        | none =>
          match su.newClient2Err with
          | some err => some ("Couldn't create client with legacy tracer: " ++ err)
          | none => none

/-- The function `main` for the flag value `block`: the setup, then the loop. -/
def main (su : Startup) (env : Env) (block : Int) : Run Event × RunState :=
  match startup su block with
  | some msg => (⟨[], Outcome.fatal msg⟩, RunState.init)
  | none => loop env iterationCount block RunState.init

/-! ## Reading a block by position -/

/-- The operation sequence of transaction `i` of a block: `none` when the block
has no transaction `i` or the transaction pointer is nil. -/
def opsAt (b : Block) (i : Nat) : Option (List (Option Operation)) :=
  match b.Transactions[i]? with
  | some (some t) => some t.Operations
  | _ => none

/-- The operation pointer at position `(i, j)` of a block: `none` when the block
has no such position, `some none` when the pointer there is nil. -/
def opAt (b : Block) (i j : Nat) : Option (Option Operation) :=
  match opsAt b i with
  | some ops => ops[j]?
  | none => none

/-- The amount pointer of an operation pointer (nil for a nil operation). -/
def amountOf (op : Option Operation) : Option Amount :=
  match op with
  | some o => o.Amount
  | none => none

/-- Equal transaction counts, and equal operation counts in every
transaction. -/
def SameShape (b1 b2 : Block) : Prop :=
  b1.Transactions.length = b2.Transactions.length ∧
  ∀ i, i < b1.Transactions.length →
    ∃ l1 l2, opsAt b1 i = some l1 ∧ opsAt b2 i = some l2 ∧ l1.length = l2.length

/-- The operation sequences of the transactions of a block, in order (`none`
for a nil transaction pointer): the only part of a block that `checkBlock`
reads. -/
def operationLists (b : Block) : List (Option (List (Option Operation))) :=
  b.Transactions.map (Option.map Transaction.Operations)

/-! ## Reading a run -/

/-- The block identifier of a request to client A. -/
def Event.requestOfC1 : Event → Option PartialBlockIdentifier
  | Event.block1 id => some id
  | _ => none

/-- The block identifier of a request to client B. -/
def Event.requestOfC2 : Event → Option PartialBlockIdentifier
  | Event.block2 id => some id
  | _ => none

/-- The block number of a `Checking block` progress line. -/
def Event.checkingLine : Event → Option Int
  | Event.printChecking n => some n
  | _ => none

/-- The value `elapsed1` of iteration `k` (counted from 0) of a run that starts
with the clock unread: every completed iteration reads the clock three
times. -/
def elapsed1At (env : Env) (k : Nat) : Int :=
  Sub (env.now (3 * k + 1)) (env.now (3 * k))

/-- The value `elapsed2` of iteration `k` of such a run. -/
def elapsed2At (env : Env) (k : Nat) : Int :=
  Sub (env.now (3 * k + 2)) (env.now (3 * k + 1))

/-- The readings `now 0, ..., now m` are those of a monotonic clock counting
nanoseconds in an `int64` from a non-negative origin: they never decrease and
stay below `2 ^ 63`. Elapsed times between such readings are non-negative. -/
def MonotonicReadings (now : Nat → Int) (m : Nat) : Prop :=
  0 ≤ now 0 ∧ (∀ k, k < m → now k ≤ now (k + 1)) ∧ now m < 2 ^ 63

/-- A setup in which no profile is asked for and every call succeeds. -/
def cleanStartup : Startup := ⟨"", none, none, none, none, none⟩

/-! ## Sample data -/

/-- A sample currency. -/
def exCurrency : Currency := ⟨"MATIC", 18⟩

/-- A sample operation of type `ty` whose amount has the value `value`. -/
def exOp (ty value : String) : Operation :=
  ⟨some ⟨0, none⟩, none, ty, some "SUCCESS", some ⟨"0xabc"⟩, some ⟨value, some exCurrency⟩⟩

/-- A sample operation of type `ty` that carries no amount (a nil `Amount`). -/
def exOpNoAmount (ty : String) : Operation :=
  ⟨some ⟨0, none⟩, none, ty, some "SUCCESS", some ⟨"0xabc"⟩, none⟩

/-- A sample block with the given operation sequences, one per transaction. -/
def exBlock (txs : List (List (Option Operation))) : Block :=
  ⟨none, none, 0, txs.map (fun ops => some ⟨none, ops⟩)⟩

/-- Client A's block: one `CALL` operation of amount 5. -/
def sameAmountA : Block := exBlock [[some (exOp "CALL" "5")]]

/-- Client B's block: one `FEE` operation of the same amount 5. -/
def sameAmountB : Block := exBlock [[some (exOp "FEE" "5")]]

/-- Client A's block: transaction 0 has one operation (amount 1), transaction 1
has two. -/
def laterCountA : Block :=
  exBlock [[some (exOp "CALL" "1")], [some (exOp "CALL" "7"), some (exOp "CALL" "8")]]

/-- Client B's block: transaction 0 has one operation (amount 2), transaction 1
has one. -/
def laterCountB : Block :=
  exBlock [[some (exOp "CALL" "2")], [some (exOp "CALL" "7")]]

/-- Client B's block: transaction 0 as in `laterCountA`, transaction 1 with
one operation. -/
def firstCountB : Block :=
  exBlock [[some (exOp "CALL" "1")], [some (exOp "CALL" "7")]]

/-- Client A's block: one operation, with a nil `Amount`. -/
def noAmountA : Block := exBlock [[some (exOpNoAmount "CALL")]]

/-- Client B's block: the same operation, with amount 5. -/
def noAmountB : Block := exBlock [[some (exOp "CALL" "5")]]

/-- Client A's block: two transactions, the second with amounts 7 and 8. -/
def oneAmountA : Block :=
  exBlock [[some (exOp "CALL" "1")], [some (exOp "CALL" "7"), some (exOp "CALL" "8")]]

/-- Client B's block: as `oneAmountA`, but the last amount is 9. -/
def oneAmountB : Block :=
  exBlock [[some (exOp "CALL" "1")], [some (exOp "CALL" "7"), some (exOp "CALL" "9")]]

/-- An environment whose client A always answers `b1` and whose client B
always answers `b2`, with a clock that advances by one nanosecond per
reading. -/
def exEnv (b1 b2 : Block) : Env :=
  ⟨fun _ => Except.ok b1, fun _ => Except.ok b2, fun k => k⟩

/-- A block with two transactions. -/
def twoTxs : Block := exBlock [[some (exOp "CALL" "1")], [some (exOp "CALL" "2")]]

/-- A block with three transactions. -/
def threeTxs : Block :=
  exBlock [[some (exOp "CALL" "1")], [some (exOp "CALL" "2")], [some (exOp "CALL" "3")]]

/-- The block `sameAmountA` as another client could return it: the same
operations, under other block and transaction identifiers. -/
def sameAmountRelabelled : Block :=
  ⟨some ⟨7, "0xb10c"⟩, some ⟨6, "0xb10b"⟩, 1700000000,
    [some ⟨some ⟨"0x7a"⟩, [some (exOp "CALL" "5")]⟩]⟩

/-- An environment whose two clients always answer `b` and whose clock
advances by three seconds per reading. -/
def slowEnv (b : Block) : Env :=
  ⟨fun _ => Except.ok b, fun _ => Except.ok b, fun k => 3000000000 * k⟩

/-- An environment whose client A fails every request. -/
def failingEnv1 (b : Block) : Env :=
  ⟨fun _ => Except.error "connection refused", fun _ => Except.ok b, fun k => k⟩

/-- An environment whose client B fails every request. -/
def failingEnv2 (b : Block) : Env :=
  ⟨fun _ => Except.ok b, fun _ => Except.error "connection refused", fun k => k⟩

/-! ## Lemmas on the comparison -/

theorem Run.andThen_ok {ε : Type} (t : List ε) (k : Run ε) :
    Run.andThen ⟨t, Outcome.ok⟩ k = ⟨t ++ k.trace, k.outcome⟩ := rfl

theorem Run.andThen_outcome_ok_iff {ε : Type} (r k : Run ε) :
    (r.andThen k).outcome = Outcome.ok ↔ r.outcome = Outcome.ok ∧ k.outcome = Outcome.ok := by
  obtain ⟨t, o⟩ := r
  cases o <;> simp [Run.andThen]

theorem Run.andThen_of_not_ok {ε : Type} (r k : Run ε) (h : r.outcome ≠ Outcome.ok) :
    r.andThen k = r := by
  obtain ⟨t, o⟩ := r
  cases o <;> simp_all [Run.andThen]

theorem Run.andThen_of_ok {ε : Type} (r k : Run ε) (h : r.outcome = Outcome.ok) :
    r.andThen k = ⟨r.trace ++ k.trace, k.outcome⟩ := by
  obtain ⟨t, o⟩ := r
  cases o <;> simp_all [Run.andThen]

theorem opsNotEqual_ne_ok (op1 op2 : Option Operation) : opsNotEqual op1 op2 ≠ Outcome.ok := by
  unfold opsNotEqual
  split <;> simp

theorem opsNotEqual_ne_indexOutOfRange (op1 op2 : Option Operation) :
    opsNotEqual op1 op2 ≠ Outcome.fault Fault.indexOutOfRange := by
  unfold opsNotEqual
  split <;> simp

theorem opsLoop_cons_eq (i : Nat) (ops2 : List (Option Operation)) (j : Nat)
    (op : Option Operation) (rest : List (Option Operation)) (h : ops2[j]? = some op) :
    opsLoop i ops2 j (op :: rest) =
      ⟨Cmp.ops i j :: (opsLoop i ops2 (j + 1) rest).trace,
        (opsLoop i ops2 (j + 1) rest).outcome⟩ := by
  simp [opsLoop, h, Run.andThen_ok]

theorem opsLoop_cons_ne (i : Nat) (ops2 : List (Option Operation)) (j : Nat)
    (op1 op2 : Option Operation) (rest : List (Option Operation))
    (h : ops2[j]? = some op2) (hne : op1 ≠ op2) :
    opsLoop i ops2 j (op1 :: rest) = ⟨[Cmp.ops i j], opsNotEqual op1 op2⟩ := by
  simp [opsLoop, h, hne]

/-- The inner loop falls through exactly when every operation it visits equals
the one at the same index in `ops2`. -/
theorem opsLoop_outcome_ok_iff (i : Nat) (ops2 : List (Option Operation)) :
    ∀ (rest : List (Option Operation)) (j : Nat),
      (opsLoop i ops2 j rest).outcome = Outcome.ok ↔
        ∀ k, k < rest.length → rest[k]? = ops2[j + k]? := by
  intro rest
  induction rest with
  | nil => intro j; simp [opsLoop]
  | cons op1 rest ih =>
    intro j
    constructor
    · intro h k hk
      cases h2 : ops2[j]? with
      | none => simp [opsLoop, h2] at h
      | some op2 =>
        by_cases he : op1 = op2
        · subst he
          rw [opsLoop_cons_eq i ops2 j op1 rest h2] at h
          cases k with
          | zero => simpa using h2.symm
          | succ k =>
            have := (ih (j + 1)).1 h k (by simpa using hk)
            simpa [Nat.add_assoc, Nat.add_comm 1 k] using this
        · rw [opsLoop_cons_ne i ops2 j op1 op2 rest h2 he] at h
          exact absurd h (opsNotEqual_ne_ok op1 op2)
    · intro h
      have h0 := h 0 (by simp)
      simp only [List.getElem?_cons_zero, Nat.add_zero] at h0
      rw [opsLoop_cons_eq i ops2 j op1 rest h0.symm]
      refine (ih (j + 1)).2 ?_
      intro k hk
      have := h (k + 1) (by simpa using hk)
      simpa [Nat.add_assoc, Nat.add_comm 1 k] using this

/-- The inner loop stops at the first index whose two operations differ, with
the outcome of the `ops not equal` call for that pair. -/
theorem opsLoop_first_mismatch (i : Nat) (ops2 : List (Option Operation)) :
    ∀ (m : Nat) (rest : List (Option Operation)) (j : Nat) (o1 o2 : Option Operation),
      (∀ k, k < m → rest[k]? = ops2[j + k]?) →
      rest[m]? = some o1 → ops2[j + m]? = some o2 → o1 ≠ o2 →
      opsLoop i ops2 j rest =
        ⟨(List.range (m + 1)).map (fun k => Cmp.ops i (j + k)), opsNotEqual o1 o2⟩ := by
  intro m
  induction m with
  | zero =>
    intro rest j o1 o2 _ h1 h2 hne
    cases rest with
    | nil => simp at h1
    | cons a rest =>
      simp only [List.getElem?_cons_zero, Option.some.injEq] at h1
      subst h1
      rw [opsLoop_cons_ne i ops2 j a o2 rest (by simpa using h2) hne]
      simp [List.range_succ]
  | succ m ih =>
    intro rest j o1 o2 hpre h1 h2 hne
    cases rest with
    | nil => simp at h1
    | cons a rest =>
      have h0 := hpre 0 (Nat.succ_pos m)
      simp only [List.getElem?_cons_zero, Nat.add_zero] at h0
      rw [opsLoop_cons_eq i ops2 j a rest h0.symm]
      have hrec := ih rest (j + 1) o1 o2
        (fun k hk => by
          have := hpre (k + 1) (Nat.succ_lt_succ hk)
          simpa [Nat.add_assoc, Nat.add_comm 1 k] using this)
        (by simpa using h1)
        (by simpa [Nat.add_assoc, Nat.add_comm 1 m] using h2) hne
      rw [hrec]
      congr 1
      rw [List.range_succ_eq_map (m + 1)]
      simp [List.map_map, Function.comp_def, Nat.add_assoc, Nat.add_comm 1]

theorem txBody_outcome_ok_iff (i : Nat) (tx1 tx2 : Option Transaction) :
    (txBody i tx1 tx2).outcome = Outcome.ok ↔
      ∃ t1 t2, tx1 = some t1 ∧ tx2 = some t2 ∧ t1.Operations = t2.Operations := by
  cases tx1 with
  | none => simp [txBody]
  | some t1 =>
    cases tx2 with
    | none => simp [txBody]
    | some t2 =>
      by_cases hlen : t1.Operations.length = t2.Operations.length
      · simp only [txBody, hlen, ne_eq, not_true_eq_false, ↓reduceIte, Run.andThen_ok,
          Option.some.injEq, exists_and_left, exists_eq_left']
        rw [opsLoop_outcome_ok_iff]
        constructor
        · intro h
          apply List.ext_getElem?
          intro n
          by_cases hn : n < t2.Operations.length
          · simpa using h n (by omega)
          · rw [List.getElem?_eq_none (by omega), List.getElem?_eq_none (by omega)]
        · intro h k _
          simp [h]
      · have hne : t1.Operations ≠ t2.Operations := fun h => hlen (by rw [h])
        simp [txBody, hlen, hne]

theorem txBody_opCounts (i : Nat) (t1 t2 : Transaction)
    (h : t1.Operations.length ≠ t2.Operations.length) :
    txBody i (some t1) (some t2) = ⟨[Cmp.opCounts i], Outcome.fatal "op counts differ"⟩ := by
  simp [txBody, h]

theorem txBody_first_mismatch (i j : Nat) (t1 t2 : Transaction) (o1 o2 : Option Operation)
    (hlen : t1.Operations.length = t2.Operations.length)
    (hpre : ∀ k, k < j → t1.Operations[k]? = t2.Operations[k]?)
    (h1 : t1.Operations[j]? = some o1) (h2 : t2.Operations[j]? = some o2) (hne : o1 ≠ o2) :
    txBody i (some t1) (some t2) =
      ⟨Cmp.opCounts i :: (List.range (j + 1)).map (fun k => Cmp.ops i k),
        opsNotEqual o1 o2⟩ := by
  have h := opsLoop_first_mismatch i t2.Operations j t1.Operations 0 o1 o2
    (by simpa using hpre) h1 (by simpa using h2) hne
  simp [txBody, hlen, Run.andThen_ok, h]

theorem txLoop_cons (txs2 : List (Option Transaction)) (i : Nat) (tx1 tx2 : Option Transaction)
    (rest : List (Option Transaction)) (h : txs2[i]? = some tx2) :
    txLoop txs2 i (tx1 :: rest) = Run.andThen (txBody i tx1 tx2) (txLoop txs2 (i + 1) rest) := by
  simp [txLoop, h]

/-- The outer loop falls through exactly when every transaction it visits and
the one at the same index in `txs2` are present and carry the same operation
sequence. -/
theorem txLoop_outcome_ok_iff (txs2 : List (Option Transaction)) :
    ∀ (rest : List (Option Transaction)) (i : Nat),
      (txLoop txs2 i rest).outcome = Outcome.ok ↔
        ∀ k, k < rest.length → ∃ t1 t2, rest[k]? = some (some t1) ∧
          txs2[i + k]? = some (some t2) ∧ t1.Operations = t2.Operations := by
  intro rest
  induction rest with
  | nil => intro i; simp [txLoop]
  | cons tx1 rest ih =>
    intro i
    constructor
    · intro h k hk
      cases h2 : txs2[i]? with
      | none => simp [txLoop, h2] at h
      | some tx2 =>
        rw [txLoop_cons txs2 i tx1 tx2 rest h2, Run.andThen_outcome_ok_iff] at h
        cases k with
        | zero =>
          obtain ⟨t1, t2, e1, e2, e3⟩ := (txBody_outcome_ok_iff i tx1 tx2).1 h.1
          exact ⟨t1, t2, by simp [e1], by simp [h2, e2], e3⟩
        | succ k =>
          obtain ⟨t1, t2, e1, e2, e3⟩ := (ih (i + 1)).1 h.2 k (by simpa using hk)
          exact ⟨t1, t2, by simpa using e1,
            by simpa [Nat.add_assoc, Nat.add_comm 1 k] using e2, e3⟩
    · intro h
      obtain ⟨t1, t2, e1, e2, e3⟩ := h 0 (by simp)
      simp only [List.getElem?_cons_zero, Option.some.injEq, Nat.add_zero] at e1 e2
      rw [txLoop_cons txs2 i tx1 (some t2) rest e2, Run.andThen_outcome_ok_iff]
      refine ⟨(txBody_outcome_ok_iff i tx1 (some t2)).2 ⟨t1, t2, e1, rfl, e3⟩, ?_⟩
      refine (ih (i + 1)).2 ?_
      intro k hk
      obtain ⟨u1, u2, f1, f2, f3⟩ := h (k + 1) (by simpa using hk)
      exact ⟨u1, u2, by simpa using f1,
        by simpa [Nat.add_assoc, Nat.add_comm 1 k] using f2, f3⟩

/-- The outer loop ends in the first transaction whose body does not fall
through, with the outcome of that body and its events last. -/
theorem txLoop_first_failure (txs2 : List (Option Transaction)) :
    ∀ (m : Nat) (rest : List (Option Transaction)) (i : Nat) (tx1 tx2 : Option Transaction),
      (∀ k, k < m → ∃ t1 t2, rest[k]? = some (some t1) ∧
          txs2[i + k]? = some (some t2) ∧ t1.Operations = t2.Operations) →
      rest[m]? = some tx1 → txs2[i + m]? = some tx2 →
      (txBody (i + m) tx1 tx2).outcome ≠ Outcome.ok →
      ∃ T, txLoop txs2 i rest =
        ⟨T ++ (txBody (i + m) tx1 tx2).trace, (txBody (i + m) tx1 tx2).outcome⟩ := by
  intro m
  induction m with
  | zero =>
    intro rest i tx1 tx2 _ h1 h2 hbad
    cases rest with
    | nil => simp at h1
    | cons a rest =>
      simp only [List.getElem?_cons_zero, Option.some.injEq] at h1
      subst h1
      rw [txLoop_cons txs2 i a tx2 rest (by simpa using h2)]
      rw [Run.andThen_of_not_ok _ _ (by simpa using hbad)]
      exact ⟨[], by simp⟩
  | succ m ih =>
    intro rest i tx1 tx2 hpre h1 h2 hbad
    cases rest with
    | nil => simp at h1
    | cons a rest =>
      obtain ⟨t1, t2, e1, e2, e3⟩ := hpre 0 (Nat.succ_pos m)
      simp only [List.getElem?_cons_zero, Option.some.injEq, Nat.add_zero] at e1 e2
      have hok : (txBody i a (some t2)).outcome = Outcome.ok :=
        (txBody_outcome_ok_iff i a (some t2)).2 ⟨t1, t2, e1, rfl, e3⟩
      rw [txLoop_cons txs2 i a (some t2) rest e2, Run.andThen_of_ok _ _ hok]
      have hidx : i + 1 + m = i + (m + 1) := by omega
      obtain ⟨T, hT⟩ := ih rest (i + 1) tx1 tx2
        (fun k hk => by
          obtain ⟨u1, u2, f1, f2, f3⟩ := hpre (k + 1) (Nat.succ_lt_succ hk)
          exact ⟨u1, u2, by simpa using f1,
            by simpa [Nat.add_assoc, Nat.add_comm 1 k] using f2, f3⟩)
        (by simpa using h1) (by rw [hidx]; exact h2) (by rw [hidx]; exact hbad)
      rw [hT, hidx]
      exact ⟨(txBody i a (some t2)).trace ++ T, by simp⟩

theorem opsAt_eq_some_iff (b : Block) (i : Nat) (l : List (Option Operation)) :
    opsAt b i = some l ↔ ∃ t, b.Transactions[i]? = some (some t) ∧ t.Operations = l := by
  unfold opsAt
  split <;> simp_all

theorem opAt_of_opsAt (b : Block) (i j : Nat) (l : List (Option Operation))
    (h : opsAt b i = some l) : opAt b i j = l[j]? := by
  simp [opAt, h]

/-- The comparison falls through exactly when the two blocks have as many
transactions and, at every index, two present transactions with the same
operation sequence. -/
theorem compareBlocks_outcome_ok_iff (b1 b2 : Block) :
    (compareBlocks b1 b2).outcome = Outcome.ok ↔
      b1.Transactions.length = b2.Transactions.length ∧
      ∀ i, i < b1.Transactions.length → ∃ l, opsAt b1 i = some l ∧ opsAt b2 i = some l := by
  by_cases hlen : b1.Transactions.length = b2.Transactions.length
  · simp only [compareBlocks, hlen, ne_eq, not_true_eq_false, ↓reduceIte, Run.andThen_ok,
      true_and]
    rw [txLoop_outcome_ok_iff]
    constructor
    · intro h i hi
      obtain ⟨t1, t2, e1, e2, e3⟩ := h i (by omega)
      rw [Nat.zero_add] at e2
      exact ⟨t1.Operations, (opsAt_eq_some_iff b1 i _).2 ⟨t1, e1, rfl⟩,
        (opsAt_eq_some_iff b2 i _).2 ⟨t2, e2, e3.symm⟩⟩
    · intro h i hi
      obtain ⟨l, e1, e2⟩ := h i (by omega)
      obtain ⟨t1, f1, g1⟩ := (opsAt_eq_some_iff b1 i l).1 e1
      obtain ⟨t2, f2, g2⟩ := (opsAt_eq_some_iff b2 i l).1 e2
      exact ⟨t1, t2, f1, by simpa using f2, by rw [g1, g2]⟩
  · simp [compareBlocks, hlen]

/-- The comparison ends in the first transaction whose body does not fall
through, with the outcome of that body and its events last. -/
theorem compareBlocks_first_failure (b1 b2 : Block) (i : Nat) (tx1 tx2 : Option Transaction)
    (hlen : b1.Transactions.length = b2.Transactions.length)
    (hpre : ∀ k, k < i → ∃ l, opsAt b1 k = some l ∧ opsAt b2 k = some l)
    (h1 : b1.Transactions[i]? = some tx1) (h2 : b2.Transactions[i]? = some tx2)
    (hbad : (txBody i tx1 tx2).outcome ≠ Outcome.ok) :
    ∃ T, compareBlocks b1 b2 = ⟨T ++ (txBody i tx1 tx2).trace, (txBody i tx1 tx2).outcome⟩ := by
  obtain ⟨T, hT⟩ := txLoop_first_failure b2.Transactions i b1.Transactions 0 tx1 tx2
    (fun k hk => by
      obtain ⟨l, e1, e2⟩ := hpre k hk
      obtain ⟨t1, f1, g1⟩ := (opsAt_eq_some_iff b1 k l).1 e1
      obtain ⟨t2, f2, g2⟩ := (opsAt_eq_some_iff b2 k l).1 e2
      exact ⟨t1, t2, f1, by simpa using f2, by rw [g1, g2]⟩)
    h1 (by simpa using h2) (by simpa using hbad)
  rw [Nat.zero_add] at hT
  refine ⟨Cmp.transactionCounts :: T, ?_⟩
  simp [compareBlocks, hlen, Run.andThen_ok, hT]

/-- In two blocks of the same shape whose operations agree at every position
before `(i, j)`, where the operations differ, the comparison ends with the
outcome of the `ops not equal` call for that pair. -/
theorem compareBlocks_first_unequal_pair (b1 b2 : Block) (i j : Nat)
    (o1 o2 : Option Operation) (hs : SameShape b1 b2)
    (hpre : ∀ k, k < i → ∀ n, opAt b1 k n = opAt b2 k n)
    (hrow : ∀ n, n < j → opAt b1 i n = opAt b2 i n)
    (h1 : opAt b1 i j = some o1) (h2 : opAt b2 i j = some o2) (hne : o1 ≠ o2) :
    ∃ T, compareBlocks b1 b2 = ⟨T ++ [Cmp.ops i j], opsNotEqual o1 o2⟩ := by
  have hi : i < b1.Transactions.length := by
    by_contra hc
    have : opsAt b1 i = none := by
      unfold opsAt
      rw [List.getElem?_eq_none (by omega)]
    simp [opAt, this] at h1
  obtain ⟨l1, l2, e1, e2, hl⟩ := hs.2 i hi
  obtain ⟨t1, f1, g1⟩ := (opsAt_eq_some_iff b1 i l1).1 e1
  obtain ⟨t2, f2, g2⟩ := (opsAt_eq_some_iff b2 i l2).1 e2
  rw [opAt_of_opsAt b1 i j l1 e1] at h1
  rw [opAt_of_opsAt b2 i j l2 e2] at h2
  have hbody := txBody_first_mismatch i j t1 t2 o1 o2 (by rw [g1, g2]; exact hl)
    (fun n hn => by
      have := hrow n hn
      rwa [opAt_of_opsAt b1 i n l1 e1, opAt_of_opsAt b2 i n l2 e2, ← g1, ← g2] at this)
    (by rw [g1]; exact h1) (by rw [g2]; exact h2) hne
  obtain ⟨T, hT⟩ := compareBlocks_first_failure b1 b2 i (some t1) (some t2) hs.1
    (fun k hk => by
      obtain ⟨m1, m2, c1, c2, hm⟩ := hs.2 k (by omega)
      refine ⟨m1, c1, ?_⟩
      rw [c2]
      congr 1
      apply List.ext_getElem?
      intro n
      have := hpre k hk n
      rw [opAt_of_opsAt b1 k n m1 c1, opAt_of_opsAt b2 k n m2 c2] at this
      exact this.symm)
    f1 f2 (by rw [hbody]; exact opsNotEqual_ne_ok o1 o2)
  rw [hbody] at hT
  refine ⟨T ++ Cmp.opCounts i :: (List.range j).map (fun k => Cmp.ops i k), ?_⟩
  rw [hT]
  simp [List.range_succ]

theorem Run.andThen_outcome_ne {ε : Type} (r k : Run ε) (o : Outcome)
    (hr : r.outcome ≠ o) (hk : k.outcome ≠ o) : (r.andThen k).outcome ≠ o := by
  obtain ⟨t, x⟩ := r
  cases x <;> simp_all [Run.andThen]

theorem opsLoop_ne_indexOutOfRange (i : Nat) (ops2 : List (Option Operation)) :
    ∀ (rest : List (Option Operation)) (j : Nat), j + rest.length ≤ ops2.length →
      (opsLoop i ops2 j rest).outcome ≠ Outcome.fault Fault.indexOutOfRange := by
  intro rest
  induction rest with
  | nil => intro j _; simp [opsLoop]
  | cons op1 rest ih =>
    intro j hj
    simp only [List.length_cons] at hj
    have hlt : j < ops2.length := by omega
    have hget : ops2[j]? = some ops2[j] := List.getElem?_eq_getElem hlt
    by_cases he : op1 = ops2[j]
    · rw [he, opsLoop_cons_eq i ops2 j ops2[j] rest hget]
      exact ih (j + 1) (by omega)
    · rw [opsLoop_cons_ne i ops2 j op1 ops2[j] rest hget he]
      exact opsNotEqual_ne_indexOutOfRange op1 ops2[j]

theorem txBody_ne_indexOutOfRange (i : Nat) (tx1 tx2 : Option Transaction) :
    (txBody i tx1 tx2).outcome ≠ Outcome.fault Fault.indexOutOfRange := by
  cases tx1 with
  | none => simp [txBody]
  | some t1 =>
    cases tx2 with
    | none => simp [txBody]
    | some t2 =>
      by_cases hlen : t1.Operations.length = t2.Operations.length
      · simp only [txBody, hlen, ne_eq, not_true_eq_false, ↓reduceIte, Run.andThen_ok]
        exact opsLoop_ne_indexOutOfRange i t2.Operations t1.Operations 0 (by omega)
      · simp [txBody, hlen]

theorem txLoop_ne_indexOutOfRange (txs2 : List (Option Transaction)) :
    ∀ (rest : List (Option Transaction)) (i : Nat), i + rest.length ≤ txs2.length →
      (txLoop txs2 i rest).outcome ≠ Outcome.fault Fault.indexOutOfRange := by
  intro rest
  induction rest with
  | nil => intro i _; simp [txLoop]
  | cons tx1 rest ih =>
    intro i hi
    simp only [List.length_cons] at hi
    have hlt : i < txs2.length := by omega
    rw [txLoop_cons txs2 i tx1 txs2[i] rest (List.getElem?_eq_getElem hlt)]
    exact Run.andThen_outcome_ne _ _ _ (txBody_ne_indexOutOfRange i tx1 txs2[i])
      (ih (i + 1) (by omega))

/-- The positional accesses `b2.Transactions[i]` and `ops2[j]` are always in
bounds: the comparison never ends with an index-out-of-range fault. -/
theorem compareBlocks_ne_indexOutOfRange (b1 b2 : Block) :
    (compareBlocks b1 b2).outcome ≠ Outcome.fault Fault.indexOutOfRange := by
  by_cases hlen : b1.Transactions.length = b2.Transactions.length
  · simp only [compareBlocks, hlen, ne_eq, not_true_eq_false, ↓reduceIte, Run.andThen_ok]
    exact txLoop_ne_indexOutOfRange b2.Transactions b1.Transactions 0 (by omega)
  · simp [compareBlocks, hlen]

/-! ## Lemmas on `checkBlock` and the loop -/

theorem checkBlock_of_ok (env : Env) (blockNum : Int) (st : RunState) (b1 b2 : Block)
    (h1 : env.c1 ⟨some blockNum, none⟩ = Except.ok b1)
    (h2 : env.c2 ⟨some blockNum, none⟩ = Except.ok b2) :
    checkBlock env blockNum st =
      (⟨[Event.printChecking blockNum, Event.block1 ⟨some blockNum, none⟩,
          Event.block2 ⟨some blockNum, none⟩,
          Event.printRequestTimes (Sub (env.now (st.ticks + 1)) (env.now st.ticks))
            (Sub (env.now (st.ticks + 2)) (env.now (st.ticks + 1)))
            (wrapInt64 (st.total1 + Sub (env.now (st.ticks + 1)) (env.now st.ticks)))
            (wrapInt64 (st.total2 + Sub (env.now (st.ticks + 2)) (env.now (st.ticks + 1))))]
          ++ (if Sub (env.now (st.ticks + 1)) (env.now st.ticks) > Second * 2
                then [Event.printWarningC1 blockNum] else [])
          ++ (if Sub (env.now (st.ticks + 2)) (env.now (st.ticks + 1)) > Second * 2
                then [Event.printWarningC2 blockNum] else [])
          ++ (compareBlocks b1 b2).trace.map Event.compare,
        (compareBlocks b1 b2).outcome⟩,
       ⟨wrapInt64 (st.total1 + Sub (env.now (st.ticks + 1)) (env.now st.ticks)),
        wrapInt64 (st.total2 + Sub (env.now (st.ticks + 2)) (env.now (st.ticks + 1))),
        st.ticks + 3⟩) := by
  simp [checkBlock, h1, h2]

theorem checkBlock_outcome_of_ok (env : Env) (blockNum : Int) (st : RunState) (b1 b2 : Block)
    (h1 : env.c1 ⟨some blockNum, none⟩ = Except.ok b1)
    (h2 : env.c2 ⟨some blockNum, none⟩ = Except.ok b2) :
    (checkBlock env blockNum st).1.outcome = (compareBlocks b1 b2).outcome := by
  rw [checkBlock_of_ok env blockNum st b1 b2 h1 h2]

theorem loop_of_not_ok (env : Env) (n : Nat) (blockNum : Int) (st : RunState)
    (h : (checkBlock env blockNum st).1.outcome ≠ Outcome.ok) :
    loop env (n + 1) blockNum st = checkBlock env blockNum st := by
  rw [loop]
  generalize checkBlock env blockNum st = step at h
  obtain ⟨⟨t, o⟩, st1⟩ := step
  cases o <;> simp_all

theorem loop_of_ok (env : Env) (n : Nat) (blockNum : Int) (st : RunState)
    (h : (checkBlock env blockNum st).1.outcome = Outcome.ok) :
    loop env (n + 1) blockNum st =
      (⟨(checkBlock env blockNum st).1.trace ++
          (loop env n (wrapInt64 (blockNum - 1)) (checkBlock env blockNum st).2).1.trace,
        (loop env n (wrapInt64 (blockNum - 1)) (checkBlock env blockNum st).2).1.outcome⟩,
       (loop env n (wrapInt64 (blockNum - 1)) (checkBlock env blockNum st).2).2) := by
  rw [loop]
  simp only [h]

/-! ## The claims on the comparison -/

/-- C1, as stated, fails: the two sample blocks have the same number of
transactions, the same number of operations in every transaction and equal
amounts at every position, and the comparison still ends on the
`ops not equal` fatal path, because the operations differ in their type. -/
theorem equal_amounts_still_fatal :
    SameShape sameAmountA sameAmountB ∧
    (∀ i j, (opAt sameAmountA i j).map amountOf = (opAt sameAmountB i j).map amountOf) ∧
    (compareBlocks sameAmountA sameAmountB).outcome = Outcome.fatal "ops not equal 5 5" := by
  refine ⟨⟨rfl, ?_⟩, ?_, by rfl⟩
  · intro i hi
    have hi1 : i < 1 := hi
    have hi0 : i = 0 := by omega
    subst hi0
    exact ⟨_, _, rfl, rfl, rfl⟩
  · intro i j
    cases i with
    | zero =>
      cases j with
      | zero => rfl
      | succ j => rfl
    | succ i => rfl

/-- C1, amended: for every pair of blocks with the same number of transactions,
the same number of operations in every transaction, and deeply equal
operations (every field, not only the amount) at every position, the
comparison of `checkBlock` falls through: it takes none of the fatal paths and
does not fault. -/
theorem compareBlocks_ok_of_equal_operations (b1 b2 : Block) (hs : SameShape b1 b2)
    (he : ∀ i j, opAt b1 i j = opAt b2 i j) :
    (compareBlocks b1 b2).outcome = Outcome.ok := by
  rw [compareBlocks_outcome_ok_iff]
  refine ⟨hs.1, ?_⟩
  intro i hi
  obtain ⟨l1, l2, e1, e2, _⟩ := hs.2 i hi
  refine ⟨l1, e1, ?_⟩
  rw [e2]
  congr 1
  apply List.ext_getElem?
  intro n
  have := he i n
  rw [opAt_of_opsAt b1 i n l1 e1, opAt_of_opsAt b2 i n l2 e2] at this
  exact this.symm

/-- C1, amended, at a concrete input: a block compared with itself. -/
theorem compareBlocks_ok_of_equal_operations_witness :
    (compareBlocks sameAmountA sameAmountA).outcome = Outcome.ok :=
  compareBlocks_ok_of_equal_operations sameAmountA sameAmountA
    ⟨rfl, fun i hi => by
      have hi1 : i < 1 := hi
      have hi0 : i = 0 := by omega
      subst hi0
      exact ⟨_, _, rfl, rfl, rfl⟩⟩
    (fun _ _ => rfl)

/-- C3, as stated, fails: the two sample blocks have two transactions each and
their transactions at index 1 have different numbers of operations, but the
run ends while processing transaction 0, with the `ops not equal` diagnostic:
transaction 1 is never reached. -/
theorem later_op_count_mismatch_not_reported :
    laterCountA.Transactions.length = laterCountB.Transactions.length ∧
    (∃ l1 l2, opsAt laterCountA 1 = some l1 ∧ opsAt laterCountB 1 = some l2 ∧
      l1.length ≠ l2.length) ∧
    compareBlocks laterCountA laterCountB =
      ⟨[Cmp.transactionCounts, Cmp.opCounts 0, Cmp.ops 0 0],
        Outcome.fatal "ops not equal 1 2"⟩ := by
  refine ⟨rfl, ⟨_, _, rfl, rfl, by decide⟩, by rfl⟩

/-- C3, amended: for every pair of blocks with equal transaction counts and the
first transaction index `i` at which the blocks differ (every earlier
transaction is present on both sides with deeply equal operation sequences),
if the two transactions at `i` have different numbers of operations, then
`checkBlock` fails fatally with `op counts differ`, raised while processing
transaction `i`: the operation-count comparison of transaction `i` is the last
comparison made. -/
theorem compareBlocks_first_op_count_mismatch (b1 b2 : Block) (i : Nat)
    (l1 l2 : List (Option Operation))
    (hlen : b1.Transactions.length = b2.Transactions.length)
    (hpre : ∀ k, k < i → ∃ l, opsAt b1 k = some l ∧ opsAt b2 k = some l)
    (h1 : opsAt b1 i = some l1) (h2 : opsAt b2 i = some l2)
    (hne : l1.length ≠ l2.length) :
    (compareBlocks b1 b2).outcome = Outcome.fatal "op counts differ" ∧
    ∃ T, (compareBlocks b1 b2).trace = T ++ [Cmp.opCounts i] := by
  obtain ⟨t1, f1, g1⟩ := (opsAt_eq_some_iff b1 i l1).1 h1
  obtain ⟨t2, f2, g2⟩ := (opsAt_eq_some_iff b2 i l2).1 h2
  have hbody := txBody_opCounts i t1 t2 (by rw [g1, g2]; exact hne)
  obtain ⟨T, hT⟩ := compareBlocks_first_failure b1 b2 i (some t1) (some t2) hlen hpre f1 f2
    (by rw [hbody]; simp)
  rw [hbody] at hT
  rw [hT]
  exact ⟨rfl, T, rfl⟩

/-- C3, amended, at a concrete input: transaction 0 is the same on both
sides, transaction 1 has two operations for client A and one for client B. -/
theorem compareBlocks_first_op_count_mismatch_witness :
    (compareBlocks laterCountA firstCountB).outcome = Outcome.fatal "op counts differ" ∧
    ∃ T, (compareBlocks laterCountA firstCountB).trace = T ++ [Cmp.opCounts 1] :=
  compareBlocks_first_op_count_mismatch laterCountA firstCountB 1 _ _ rfl
    (fun k hk => by
      have hk0 : k = 0 := by omega
      subst hk0
      exact ⟨_, rfl, rfl⟩)
    rfl rfl (by decide)

/-- C4: for every pair of blocks with equal transaction counts and equal
operation counts in every transaction, in which the operations at one position
`(i, j)` carry amounts `a1` (client A) and `a2` (client B) that differ, and
every other position holds equal operations, `checkBlock` fails fatally with
the message `ops not equal`, followed by the value of `a1` and the value of
`a2`; the message contains both values. -/
theorem compareBlocks_one_amount_differs (b1 b2 : Block) (i j : Nat) (o1 o2 : Operation)
    (a1 a2 : Amount) (hs : SameShape b1 b2)
    (h1 : opAt b1 i j = some (some o1)) (h2 : opAt b2 i j = some (some o2))
    (ha1 : o1.Amount = some a1) (ha2 : o2.Amount = some a2) (hne : a1 ≠ a2)
    (hrest : ∀ k n, (k, n) ≠ (i, j) → opAt b1 k n = opAt b2 k n) :
    ∃ msg, (compareBlocks b1 b2).outcome = Outcome.fatal msg ∧
      msg = "ops not equal " ++ a1.Value ++ " " ++ a2.Value ∧
      a1.Value.data <:+: msg.data ∧ a2.Value.data <:+: msg.data := by
  have hops : (some o1 : Option Operation) ≠ some o2 := by
    intro h
    have h3 : o1 = o2 := Option.some.inj h
    rw [h3, ha2] at ha1
    exact hne (Option.some.inj ha1).symm
  obtain ⟨T, hT⟩ := compareBlocks_first_unequal_pair b1 b2 i j (some o1) (some o2) hs
    (fun k hk n => hrest k n (fun h => by
      have : k = i := congrArg Prod.fst h
      omega))
    (fun n hn => hrest i n (fun h => by
      have : n = j := congrArg Prod.snd h
      omega))
    h1 h2 hops
  refine ⟨"ops not equal " ++ a1.Value ++ " " ++ a2.Value, ?_, rfl, ?_, ?_⟩
  · rw [hT]
    simp [opsNotEqual, amountValue, ha1, ha2]
  · exact ⟨"ops not equal ".data, " ".data ++ a2.Value.data, by simp [String.data_append]⟩
  · exact ⟨"ops not equal ".data ++ a1.Value.data ++ " ".data, [], by
      simp [String.data_append]⟩

/-- C4 at a concrete input: two transactions, the last operation has amount 8
for client A and 9 for client B. -/
theorem compareBlocks_one_amount_differs_witness :
    ∃ msg, (compareBlocks oneAmountA oneAmountB).outcome = Outcome.fatal msg ∧
      msg = "ops not equal " ++ "8" ++ " " ++ "9" ∧
      "8".data <:+: msg.data ∧ "9".data <:+: msg.data :=
  compareBlocks_one_amount_differs oneAmountA oneAmountB 1 1 (exOp "CALL" "8")
    (exOp "CALL" "9") ⟨"8", some exCurrency⟩ ⟨"9", some exCurrency⟩
    ⟨rfl, fun i hi => by
      have hi2 : i < 2 := hi
      have hi0 : i = 0 ∨ i = 1 := by omega
      rcases hi0 with h | h <;> subst h <;> exact ⟨_, _, rfl, rfl, rfl⟩⟩
    rfl rfl rfl rfl (by decide)
    (fun k n hkn => by
      match k, n, hkn with
      | 0, 0, _ => rfl
      | 0, n + 1, _ => rfl
      | 1, 0, _ => rfl
      | 1, 1, h => exact absurd rfl h
      | 1, n + 2, _ => rfl
      | k + 2, n, _ => rfl)

/-- C10, at the failing input: the first discrepancy of the two sample blocks
is the unequal operation pair at position `(0, 0)` (client A's operation
carries no amount), and the run does not end with the `ops not equal`
diagnostic: evaluating `op1.Amount.Value` dereferences a nil pointer. -/
theorem missing_amount_faults :
    SameShape noAmountA noAmountB ∧
    opAt noAmountA 0 0 = some (some (exOpNoAmount "CALL")) ∧
    opAt noAmountB 0 0 = some (some (exOp "CALL" "5")) ∧
    compareBlocks noAmountA noAmountB =
      ⟨[Cmp.transactionCounts, Cmp.opCounts 0, Cmp.ops 0 0],
        Outcome.fault Fault.nilDereference⟩ := by
  refine ⟨⟨rfl, ?_⟩, rfl, rfl, by rfl⟩
  intro i hi
  have hi1 : i < 1 := hi
  have hi0 : i = 0 := by omega
  subst hi0
  exact ⟨_, _, rfl, rfl, rfl⟩

theorem txBody_congr (i : Nat) (tx1 tx2 tx1' tx2' : Option Transaction)
    (h1 : tx1.map Transaction.Operations = tx1'.map Transaction.Operations)
    (h2 : tx2.map Transaction.Operations = tx2'.map Transaction.Operations) :
    txBody i tx1 tx2 = txBody i tx1' tx2' := by
  cases tx1 <;> cases tx1' <;> cases tx2 <;> cases tx2' <;> simp_all [txBody]

theorem txLoop_congr (txs2 txs2' : List (Option Transaction))
    (h2 : txs2.map (Option.map Transaction.Operations) =
      txs2'.map (Option.map Transaction.Operations)) :
    ∀ (rest rest' : List (Option Transaction)) (i : Nat),
      rest.map (Option.map Transaction.Operations) =
        rest'.map (Option.map Transaction.Operations) →
      txLoop txs2 i rest = txLoop txs2' i rest' := by
  intro rest
  induction rest with
  | nil =>
    intro rest' i h
    cases rest' with
    | nil => simp [txLoop]
    | cons a r => simp at h
  | cons a rest ih =>
    intro rest' i h
    cases rest' with
    | nil => simp at h
    | cons a' r =>
      simp only [List.map_cons, List.cons.injEq] at h
      have hi : (txs2[i]?).map (Option.map Transaction.Operations) =
          (txs2'[i]?).map (Option.map Transaction.Operations) := by
        rw [← List.getElem?_map, ← List.getElem?_map, h2]
      cases e : txs2[i]? with
      | none =>
        cases e' : txs2'[i]? with
        | none => simp [txLoop, e, e']
        | some y => simp [e, e'] at hi
      | some x =>
        cases e' : txs2'[i]? with
        | none => simp [e, e'] at hi
        | some y =>
          rw [e, e'] at hi
          simp only [Option.map_some', Option.some.injEq] at hi
          rw [txLoop_cons txs2 i a x rest e, txLoop_cons txs2' i a' y r e',
            txBody_congr i a x a' y h.1 hi, ih r (i + 1) h.2]

/-- The comparison reads nothing of the two blocks but the operation
sequences of their transactions. -/
theorem compareBlocks_congr (b1 b2 b1' b2' : Block)
    (h1 : operationLists b1' = operationLists b1)
    (h2 : operationLists b2' = operationLists b2) :
    compareBlocks b1' b2' = compareBlocks b1 b2 := by
  have l1 : b1'.Transactions.length = b1.Transactions.length := by
    have := congrArg List.length h1
    simpa [operationLists] using this
  have l2 : b2'.Transactions.length = b2.Transactions.length := by
    have := congrArg List.length h2
    simpa [operationLists] using this
  unfold compareBlocks
  rw [l1, l2, txLoop_congr b2'.Transactions b2.Transactions h2 b1'.Transactions
    b1.Transactions 0 h1]

/-- C9: for every pair of blocks for which both requests succeed, `checkBlock`
falls through exactly when the two blocks have the same number of
transactions and, at every transaction index, both transactions are present
(a nil transaction has no operation sequence) and carry the same operation
sequence, compared by position with deep equality of whole operations.
Nothing else affects the outcome: any other pair of successful replies with
the same operation sequences, under any state and clock, gives the same
outcome. -/
theorem checkBlock_ok_iff_operations_equal (env : Env) (blockNum : Int) (st : RunState)
    (b1 b2 : Block)
    (h1 : env.c1 ⟨some blockNum, none⟩ = Except.ok b1)
    (h2 : env.c2 ⟨some blockNum, none⟩ = Except.ok b2) :
    ((checkBlock env blockNum st).1.outcome = Outcome.ok ↔
      b1.Transactions.length = b2.Transactions.length ∧
      ∀ i, i < b1.Transactions.length →
        ∃ l, opsAt b1 i = some l ∧ opsAt b2 i = some l) ∧
    ∀ (env' : Env) (st' : RunState) (b1' b2' : Block),
      env'.c1 ⟨some blockNum, none⟩ = Except.ok b1' →
      env'.c2 ⟨some blockNum, none⟩ = Except.ok b2' →
      operationLists b1' = operationLists b1 →
      operationLists b2' = operationLists b2 →
      (checkBlock env' blockNum st').1.outcome = (checkBlock env blockNum st).1.outcome := by
  constructor
  · rw [checkBlock_outcome_of_ok env blockNum st b1 b2 h1 h2]
    exact compareBlocks_outcome_ok_iff b1 b2
  · intro env' st' b1' b2' g1 g2 e1 e2
    rw [checkBlock_outcome_of_ok env blockNum st b1 b2 h1 h2,
      checkBlock_outcome_of_ok env' blockNum st' b1' b2' g1 g2,
      compareBlocks_congr b1 b2 b1' b2' e1 e2]

/-- C9 at a concrete input: height 100, client A answers `sameAmountA` and
client B the same operations under other identifiers. -/
theorem checkBlock_ok_iff_operations_equal_witness :
    ((checkBlock (exEnv sameAmountA sameAmountRelabelled) 100 RunState.init).1.outcome
        = Outcome.ok ↔
      sameAmountA.Transactions.length = sameAmountRelabelled.Transactions.length ∧
      ∀ i, i < sameAmountA.Transactions.length →
        ∃ l, opsAt sameAmountA i = some l ∧ opsAt sameAmountRelabelled i = some l) ∧
    ∀ (env' : Env) (st' : RunState) (b1' b2' : Block),
      env'.c1 ⟨some 100, none⟩ = Except.ok b1' →
      env'.c2 ⟨some 100, none⟩ = Except.ok b2' →
      operationLists b1' = operationLists sameAmountA →
      operationLists b2' = operationLists sameAmountRelabelled →
      (checkBlock env' 100 st').1.outcome =
        (checkBlock (exEnv sameAmountA sameAmountRelabelled) 100 RunState.init).1.outcome :=
  checkBlock_ok_iff_operations_equal (exEnv sameAmountA sameAmountRelabelled) 100
    RunState.init sameAmountA sameAmountRelabelled rfl rfl

/-- C2: for every pair of blocks whose transaction sequences have different
lengths, whatever else they contain, `checkBlock` ends with the fatal message
`transaction counts differ`; the transaction-count comparison is the only
comparison it makes (no operation count and no operation pair is compared),
and the loop of `main` ends there, in that iteration. -/
theorem checkBlock_transaction_counts_differ (env : Env) (blockNum : Int) (st : RunState)
    (b1 b2 : Block) (n : Nat)
    (h1 : env.c1 ⟨some blockNum, none⟩ = Except.ok b1)
    (h2 : env.c2 ⟨some blockNum, none⟩ = Except.ok b2)
    (hne : b1.Transactions.length ≠ b2.Transactions.length) :
    (checkBlock env blockNum st).1.outcome = Outcome.fatal "transaction counts differ" ∧
    (∀ c, Event.compare c ∈ (checkBlock env blockNum st).1.trace → c = Cmp.transactionCounts) ∧
    (loop env (n + 1) blockNum st).1 = (checkBlock env blockNum st).1 := by
  have hout : (checkBlock env blockNum st).1.outcome =
      Outcome.fatal "transaction counts differ" := by
    rw [checkBlock_outcome_of_ok env blockNum st b1 b2 h1 h2]
    simp [compareBlocks, hne]
  refine ⟨hout, ?_, ?_⟩
  · intro c hc
    rw [checkBlock_of_ok env blockNum st b1 b2 h1 h2] at hc
    simp only [compareBlocks, hne, ne_eq, not_false_eq_true, ↓reduceIte] at hc
    by_cases w1 : Sub (env.now (st.ticks + 1)) (env.now st.ticks) > Second * 2 <;>
    by_cases w2 : Sub (env.now (st.ticks + 2)) (env.now (st.ticks + 1)) > Second * 2 <;>
    simp [w1, w2] at hc <;> exact hc
  · rw [loop_of_not_ok env n blockNum st (by rw [hout]; simp)]

/-- C2 at the concrete scenario: height 50, client A answers a block with 2
transactions and client B a block with 3. -/
theorem checkBlock_transaction_counts_differ_witness :
    (checkBlock (exEnv twoTxs threeTxs) 50 RunState.init).1.outcome =
      Outcome.fatal "transaction counts differ" ∧
    (∀ c, Event.compare c ∈ (checkBlock (exEnv twoTxs threeTxs) 50 RunState.init).1.trace →
      c = Cmp.transactionCounts) ∧
    (loop (exEnv twoTxs threeTxs) (9999 + 1) 50 RunState.init).1 =
      (checkBlock (exEnv twoTxs threeTxs) 50 RunState.init).1 :=
  checkBlock_transaction_counts_differ (exEnv twoTxs threeTxs) 50 RunState.init
    twoTxs threeTxs 9999 rfl rfl (by decide)

/-! ## The claims on `checkBlock` and the loop -/

/-- C6: in every iteration in which both requests succeed, the warning line
for C1 is printed exactly when `elapsed1` is greater than two seconds (so not
at exactly two seconds), and it names the current block number; likewise the
warning line for C2 and `elapsed2`. The warnings are advisory: the outcome of
the iteration is the one the same two blocks give under any other clock and
state. -/
theorem checkBlock_warnings (env : Env) (blockNum : Int) (st : RunState) (b1 b2 : Block)
    (h1 : env.c1 ⟨some blockNum, none⟩ = Except.ok b1)
    (h2 : env.c2 ⟨some blockNum, none⟩ = Except.ok b2) :
    (∀ n, Event.printWarningC1 n ∈ (checkBlock env blockNum st).1.trace ↔
      n = blockNum ∧ Sub (env.now (st.ticks + 1)) (env.now st.ticks) > Second * 2) ∧
    (∀ n, Event.printWarningC2 n ∈ (checkBlock env blockNum st).1.trace ↔
      n = blockNum ∧ Sub (env.now (st.ticks + 2)) (env.now (st.ticks + 1)) > Second * 2) ∧
    (Sub (env.now (st.ticks + 1)) (env.now st.ticks) = Second * 2 →
      ∀ n, Event.printWarningC1 n ∉ (checkBlock env blockNum st).1.trace) ∧
    (Sub (env.now (st.ticks + 2)) (env.now (st.ticks + 1)) = Second * 2 →
      ∀ n, Event.printWarningC2 n ∉ (checkBlock env blockNum st).1.trace) ∧
    ∀ (env' : Env) (st' : RunState),
      env'.c1 ⟨some blockNum, none⟩ = Except.ok b1 →
      env'.c2 ⟨some blockNum, none⟩ = Except.ok b2 →
      (checkBlock env' blockNum st').1.outcome = (checkBlock env blockNum st).1.outcome := by
  have w1 : ∀ n, Event.printWarningC1 n ∈ (checkBlock env blockNum st).1.trace ↔
      n = blockNum ∧ Sub (env.now (st.ticks + 1)) (env.now st.ticks) > Second * 2 := by
    intro n
    rw [checkBlock_of_ok env blockNum st b1 b2 h1 h2]
    by_cases c1 : Sub (env.now (st.ticks + 1)) (env.now st.ticks) > Second * 2 <;>
    by_cases c2 : Sub (env.now (st.ticks + 2)) (env.now (st.ticks + 1)) > Second * 2 <;>
    simp [c1, c2]
  have w2 : ∀ n, Event.printWarningC2 n ∈ (checkBlock env blockNum st).1.trace ↔
      n = blockNum ∧ Sub (env.now (st.ticks + 2)) (env.now (st.ticks + 1)) > Second * 2 := by
    intro n
    rw [checkBlock_of_ok env blockNum st b1 b2 h1 h2]
    by_cases c1 : Sub (env.now (st.ticks + 1)) (env.now st.ticks) > Second * 2 <;>
    by_cases c2 : Sub (env.now (st.ticks + 2)) (env.now (st.ticks + 1)) > Second * 2 <;>
    simp [c1, c2]
  refine ⟨w1, w2, ?_, ?_, ?_⟩
  · intro he n hn
    have := ((w1 n).1 hn).2
    rw [he] at this
    exact lt_irrefl _ this
  · intro he n hn
    have := ((w2 n).1 hn).2
    rw [he] at this
    exact lt_irrefl _ this
  · intro env' st' g1 g2
    rw [checkBlock_outcome_of_ok env blockNum st b1 b2 h1 h2,
      checkBlock_outcome_of_ok env' blockNum st' b1 b2 g1 g2]

/-- C6 at a concrete input: height 100 against a clock that advances three
seconds per reading. -/
theorem checkBlock_warnings_witness :
    (∀ n, Event.printWarningC1 n ∈ (checkBlock (slowEnv twoTxs) 100 RunState.init).1.trace ↔
      n = 100 ∧ Sub ((slowEnv twoTxs).now (RunState.init.ticks + 1))
        ((slowEnv twoTxs).now RunState.init.ticks) > Second * 2) ∧
    (∀ n, Event.printWarningC2 n ∈ (checkBlock (slowEnv twoTxs) 100 RunState.init).1.trace ↔
      n = 100 ∧ Sub ((slowEnv twoTxs).now (RunState.init.ticks + 2))
        ((slowEnv twoTxs).now (RunState.init.ticks + 1)) > Second * 2) ∧
    (Sub ((slowEnv twoTxs).now (RunState.init.ticks + 1))
        ((slowEnv twoTxs).now RunState.init.ticks) = Second * 2 →
      ∀ n, Event.printWarningC1 n ∉ (checkBlock (slowEnv twoTxs) 100 RunState.init).1.trace) ∧
    (Sub ((slowEnv twoTxs).now (RunState.init.ticks + 2))
        ((slowEnv twoTxs).now (RunState.init.ticks + 1)) = Second * 2 →
      ∀ n, Event.printWarningC2 n ∉ (checkBlock (slowEnv twoTxs) 100 RunState.init).1.trace) ∧
    ∀ (env' : Env) (st' : RunState),
      env'.c1 ⟨some 100, none⟩ = Except.ok twoTxs →
      env'.c2 ⟨some 100, none⟩ = Except.ok twoTxs →
      (checkBlock env' 100 st').1.outcome =
        (checkBlock (slowEnv twoTxs) 100 RunState.init).1.outcome :=
  checkBlock_warnings (slowEnv twoTxs) 100 RunState.init twoTxs twoTxs rfl rfl

/-- C8: the run aborts on the first client request error. With at least one
iteration left at height `h`: if client A's request for `h` fails, the run
ends fatally after the progress line and that one request (client B is not
asked, nothing is compared, no lower height is requested); if client A
succeeds and client B's request fails, the run ends fatally after the two
requests (nothing is compared, no further iteration). -/
theorem loop_aborts_on_request_error (env : Env) (n : Nat) (h : Int) (st : RunState) :
    (∀ err, env.c1 ⟨some h, none⟩ = Except.error err →
      (loop env (n + 1) h st).1 =
        ⟨[Event.printChecking h, Event.block1 ⟨some h, none⟩],
          Outcome.fatal ("Failed to get block with client 1: " ++ err)⟩) ∧
    (∀ b1 err, env.c1 ⟨some h, none⟩ = Except.ok b1 →
      env.c2 ⟨some h, none⟩ = Except.error err →
      (loop env (n + 1) h st).1 =
        ⟨[Event.printChecking h, Event.block1 ⟨some h, none⟩, Event.block2 ⟨some h, none⟩],
          Outcome.fatal ("Failed to get block with client 2: " ++ err)⟩) := by
  constructor
  · intro err he
    have hc : (checkBlock env h st).1 =
        ⟨[Event.printChecking h, Event.block1 ⟨some h, none⟩],
          Outcome.fatal ("Failed to get block with client 1: " ++ err)⟩ := by
      simp [checkBlock, he]
    rw [loop_of_not_ok env n h st (by rw [hc]; simp), hc]
  · intro b1 err h1 he
    have hc : (checkBlock env h st).1 =
        ⟨[Event.printChecking h, Event.block1 ⟨some h, none⟩, Event.block2 ⟨some h, none⟩],
          Outcome.fatal ("Failed to get block with client 2: " ++ err)⟩ := by
      simp [checkBlock, h1, he]
    rw [loop_of_not_ok env n h st (by rw [hc]; simp), hc]

/-- C8 at concrete inputs: height 100 with all 10000 iterations left, against
a failing client A and against a failing client B. -/
theorem loop_aborts_on_request_error_witness :
    (loop (failingEnv1 twoTxs) (9999 + 1) 100 RunState.init).1 =
      ⟨[Event.printChecking 100, Event.block1 ⟨some 100, none⟩],
        Outcome.fatal ("Failed to get block with client 1: " ++ "connection refused")⟩ ∧
    (loop (failingEnv2 twoTxs) (9999 + 1) 100 RunState.init).1 =
      ⟨[Event.printChecking 100, Event.block1 ⟨some 100, none⟩,
          Event.block2 ⟨some 100, none⟩],
        Outcome.fatal ("Failed to get block with client 2: " ++ "connection refused")⟩ :=
  ⟨(loop_aborts_on_request_error (failingEnv1 twoTxs) 9999 100 RunState.init).1
      "connection refused" rfl,
   (loop_aborts_on_request_error (failingEnv2 twoTxs) 9999 100 RunState.init).2
      twoTxs "connection refused" rfl rfl⟩

/-! ## Lemmas on the loop -/

theorem wrapInt64_of_range (x : Int) (h0 : -(2 ^ 63) ≤ x) (h1 : x < 2 ^ 63) :
    wrapInt64 x = x := by
  unfold wrapInt64
  omega

theorem wrapInt64_add_wrapInt64 (a b : Int) :
    wrapInt64 (wrapInt64 a + b) = wrapInt64 (a + b) := by
  unfold wrapInt64
  omega

theorem wrapInt64_idem (a : Int) : wrapInt64 (wrapInt64 a) = wrapInt64 a := by
  unfold wrapInt64
  omega

theorem Sub_of_le (t u : Int) (h0 : 0 ≤ u) (h1 : u ≤ t) (h2 : t < 2 ^ 63) :
    Sub t u = t - u := by
  unfold Sub
  rw [wrapInt64_of_range (t - u) (by omega) (by omega)]
  simp only [maxDuration, minDuration]
  split
  · omega
  · split
    · omega
    · rfl

theorem checkBlock_ok_inv (env : Env) (blockNum : Int) (st : RunState)
    (h : (checkBlock env blockNum st).1.outcome = Outcome.ok) :
    ∃ b1 b2, env.c1 ⟨some blockNum, none⟩ = Except.ok b1 ∧
      env.c2 ⟨some blockNum, none⟩ = Except.ok b2 ∧
      (compareBlocks b1 b2).outcome = Outcome.ok := by
  cases e1 : env.c1 ⟨some blockNum, none⟩ with
  | error err => simp [checkBlock, e1] at h
  | ok b1 =>
    cases e2 : env.c2 ⟨some blockNum, none⟩ with
    | error err => simp [checkBlock, e1, e2] at h
    | ok b2 =>
      rw [checkBlock_outcome_of_ok env blockNum st b1 b2 e1 e2] at h
      exact ⟨b1, b2, rfl, rfl, h⟩

theorem loop_ok_inv (env : Env) (n : Nat) (blockNum : Int) (st : RunState)
    (h : (loop env (n + 1) blockNum st).1.outcome = Outcome.ok) :
    (checkBlock env blockNum st).1.outcome = Outcome.ok := by
  by_contra hc
  rw [loop_of_not_ok env n blockNum st hc] at h
  exact hc h

theorem loop_ok_of_le (env : Env) :
    ∀ (n m : Nat) (blockNum : Int) (st : RunState), m ≤ n →
      (loop env n blockNum st).1.outcome = Outcome.ok →
      (loop env m blockNum st).1.outcome = Outcome.ok := by
  intro n
  induction n with
  | zero =>
    intro m blockNum st hm h
    have : m = 0 := by omega
    subst this
    exact h
  | succ n ih =>
    intro m blockNum st hm h
    cases m with
    | zero => simp [loop]
    | succ m =>
      have hc := loop_ok_inv env n blockNum st h
      rw [loop_of_ok env n blockNum st hc] at h
      rw [loop_of_ok env m blockNum st hc]
      exact ih m _ _ (by omega) h

/-- The accumulators after `n` completed iterations, in `int64` arithmetic. -/
theorem loop_state (env : Env) :
    ∀ (n : Nat) (blockNum : Int) (st : RunState),
      wrapInt64 st.total1 = st.total1 → wrapInt64 st.total2 = st.total2 →
      (loop env n blockNum st).1.outcome = Outcome.ok →
      (loop env n blockNum st).2 =
        ⟨wrapInt64 (st.total1 + ∑ k in Finset.range n,
            Sub (env.now (st.ticks + 3 * k + 1)) (env.now (st.ticks + 3 * k))),
          wrapInt64 (st.total2 + ∑ k in Finset.range n,
            Sub (env.now (st.ticks + 3 * k + 2)) (env.now (st.ticks + 3 * k + 1))),
          st.ticks + 3 * n⟩ := by
  intro n
  induction n with
  | zero =>
    intro blockNum st w1 w2 _
    simp [loop, w1, w2]
  | succ n ih =>
    intro blockNum st w1 w2 h
    have hc := loop_ok_inv env n blockNum st h
    obtain ⟨b1, b2, e1, e2, _⟩ := checkBlock_ok_inv env blockNum st hc
    rw [loop_of_ok env n blockNum st hc] at h
    rw [loop_of_ok env n blockNum st hc]
    have hst := checkBlock_of_ok env blockNum st b1 b2 e1 e2
    have hst2 : (checkBlock env blockNum st).2 =
        ⟨wrapInt64 (st.total1 + Sub (env.now (st.ticks + 1)) (env.now st.ticks)),
         wrapInt64 (st.total2 + Sub (env.now (st.ticks + 2)) (env.now (st.ticks + 1))),
         st.ticks + 3⟩ := by rw [hst]
    rw [hst2] at h ⊢
    rw [ih _ _ (wrapInt64_idem _) (wrapInt64_idem _) h]
    simp only [wrapInt64_add_wrapInt64]
    rw [Finset.sum_range_succ' _ n, Finset.sum_range_succ' _ n]
    have i1 : ∀ k, st.ticks + 3 + 3 * k + 1 = st.ticks + 3 * (k + 1) + 1 := fun k => by omega
    have i2 : ∀ k, st.ticks + 3 + 3 * k = st.ticks + 3 * (k + 1) := fun k => by omega
    have i3 : ∀ k, st.ticks + 3 + 3 * k + 2 = st.ticks + 3 * (k + 1) + 2 := fun k => by omega
    simp only [i1, i2, i3, Nat.mul_zero, Nat.add_zero, RunState.mk.injEq]
    refine ⟨?_, ?_, ?_⟩
    · congr 1
      ring
    · congr 1
      ring
    · trivial

theorem filterMap_requestOfC1_compare (l : List Cmp) :
    (l.map Event.compare).filterMap Event.requestOfC1 = [] := by
  induction l with
  | nil => rfl
  | cons a l ih => simp [Event.requestOfC1]

theorem filterMap_requestOfC2_compare (l : List Cmp) :
    (l.map Event.compare).filterMap Event.requestOfC2 = [] := by
  induction l with
  | nil => rfl
  | cons a l ih => simp [Event.requestOfC2]

theorem filterMap_checkingLine_compare (l : List Cmp) :
    (l.map Event.compare).filterMap Event.checkingLine = [] := by
  induction l with
  | nil => rfl
  | cons a l ih => simp [Event.checkingLine]

/-- One successful iteration asks each client once, for the current height,
and prints one progress line. -/
theorem checkBlock_requests (env : Env) (blockNum : Int) (st : RunState) (b1 b2 : Block)
    (h1 : env.c1 ⟨some blockNum, none⟩ = Except.ok b1)
    (h2 : env.c2 ⟨some blockNum, none⟩ = Except.ok b2) :
    (checkBlock env blockNum st).1.trace.filterMap Event.requestOfC1 =
        [⟨some blockNum, none⟩] ∧
    (checkBlock env blockNum st).1.trace.filterMap Event.requestOfC2 =
        [⟨some blockNum, none⟩] ∧
    (checkBlock env blockNum st).1.trace.filterMap Event.checkingLine = [blockNum] := by
  rw [checkBlock_of_ok env blockNum st b1 b2 h1 h2]
  simp only [List.filterMap_append, filterMap_requestOfC1_compare,
    filterMap_requestOfC2_compare, filterMap_checkingLine_compare, List.append_nil]
  by_cases c1 : Sub (env.now (st.ticks + 1)) (env.now st.ticks) > Second * 2 <;>
  by_cases c2 : Sub (env.now (st.ticks + 2)) (env.now (st.ticks + 1)) > Second * 2 <;>
  simp [c1, c2, Event.requestOfC1, Event.requestOfC2, Event.checkingLine]

/-- A loop of `n` iterations from height `s` whose cursor cannot wrap around,
against clients that answer matching blocks at every height it visits: it
falls through, and it visits the heights `s, s - 1, ..., s - (n - 1)` in this
order, asking both clients for each. -/
theorem loop_descends (env : Env) :
    ∀ (n : Nat) (s : Int) (st : RunState),
      -(2 ^ 63) + (n : Int) ≤ s → s < 2 ^ 63 →
      (∀ k : Nat, k < n → ∃ b1 b2,
        env.c1 ⟨some (s - k), none⟩ = Except.ok b1 ∧
        env.c2 ⟨some (s - k), none⟩ = Except.ok b2 ∧
        (compareBlocks b1 b2).outcome = Outcome.ok) →
      (loop env n s st).1.outcome = Outcome.ok ∧
      (loop env n s st).1.trace.filterMap Event.requestOfC1 =
        (List.range n).map (fun k : Nat => (⟨some (s - k), none⟩ : PartialBlockIdentifier)) ∧
      (loop env n s st).1.trace.filterMap Event.requestOfC2 =
        (List.range n).map (fun k : Nat => (⟨some (s - k), none⟩ : PartialBlockIdentifier)) ∧
      (loop env n s st).1.trace.filterMap Event.checkingLine =
        (List.range n).map (fun k : Nat => s - (k : Int)) := by
  intro n
  induction n with
  | zero =>
    intro s st _ _ _
    simp [loop]
  | succ n ih =>
    intro s st hlo hhi hok
    obtain ⟨b1, b2, e1, e2, hcmp⟩ := hok 0 (Nat.succ_pos n)
    simp only [Nat.cast_zero, sub_zero] at e1 e2
    have hc : (checkBlock env s st).1.outcome = Outcome.ok := by
      rw [checkBlock_outcome_of_ok env s st b1 b2 e1 e2]
      exact hcmp
    obtain ⟨r1, r2, r3⟩ := checkBlock_requests env s st b1 b2 e1 e2
    push_cast at hlo
    have hw : wrapInt64 (s - 1) = s - 1 := wrapInt64_of_range (s - 1) (by omega) (by omega)
    obtain ⟨o, q1, q2, q3⟩ := ih (s - 1) (checkBlock env s st).2 (by omega) (by omega)
      (fun k hk => by
        obtain ⟨c1, c2, f1, f2, f3⟩ := hok (k + 1) (Nat.succ_lt_succ hk)
        have hidx : s - ((k + 1 : Nat) : Int) = s - 1 - (k : Int) := by
          push_cast
          ring
        rw [hidx] at f1 f2
        exact ⟨c1, c2, f1, f2, f3⟩)
    rw [loop_of_ok env n s st hc, hw]
    have hsub : ∀ k : Nat, s - 1 - (k : Int) = s - ((k + 1 : Nat) : Int) := fun k => by
      push_cast
      ring
    refine ⟨o, ?_, ?_, ?_⟩
    · simp only [List.filterMap_append, r1, q1, List.range_succ_eq_map, List.map_cons,
        List.map_map, Nat.cast_zero, sub_zero, List.singleton_append, Function.comp_def, hsub]
    · simp only [List.filterMap_append, r2, q2, List.range_succ_eq_map, List.map_cons,
        List.map_map, Nat.cast_zero, sub_zero, List.singleton_append, Function.comp_def, hsub]
    · simp only [List.filterMap_append, r3, q3, List.range_succ_eq_map, List.map_cons,
        List.map_map, Nat.cast_zero, sub_zero, List.singleton_append, Function.comp_def, hsub]

theorem MonotonicReadings.le (now : Nat → Int) (m : Nat) (h : MonotonicReadings now m) :
    ∀ b, b ≤ m → ∀ a, a ≤ b → now a ≤ now b := by
  intro b
  induction b with
  | zero =>
    intro _ a ha
    have : a = 0 := by omega
    subst this
    exact le_refl _
  | succ b ih =>
    intro hb a ha
    by_cases hab : a = b + 1
    · subst hab
      exact le_refl _
    · exact le_trans (ih (by omega) a (by omega)) (h.2.1 b (by omega))

theorem MonotonicReadings.range (now : Nat → Int) (m : Nat) (h : MonotonicReadings now m)
    (k : Nat) (hk : k ≤ m) : 0 ≤ now k ∧ now k < 2 ^ 63 :=
  ⟨le_trans h.1 (MonotonicReadings.le now m h k hk 0 (Nat.zero_le k)),
    lt_of_le_of_lt (MonotonicReadings.le now m h m (le_refl m) k hk) h.2.2⟩

theorem MonotonicReadings.of_le (now : Nat → Int) (m n : Nat) (h : MonotonicReadings now n)
    (hmn : m ≤ n) : MonotonicReadings now m :=
  ⟨h.1, fun k hk => h.2.1 k (by omega), (MonotonicReadings.range now n h m hmn).2⟩

/-- Between the readings of a monotonic clock the elapsed times of an
iteration are the plain differences, and they are non-negative. -/
theorem elapsed_of_monotonic (env : Env) (n : Nat) (h : MonotonicReadings env.now (3 * n))
    (k : Nat) (hk : k < n) :
    elapsed1At env k = env.now (3 * k + 1) - env.now (3 * k) ∧
    elapsed2At env k = env.now (3 * k + 2) - env.now (3 * k + 1) ∧
    0 ≤ elapsed1At env k ∧ 0 ≤ elapsed2At env k := by
  have r0 := MonotonicReadings.range env.now (3 * n) h (3 * k) (by omega)
  have r1 := MonotonicReadings.range env.now (3 * n) h (3 * k + 1) (by omega)
  have r2 := MonotonicReadings.range env.now (3 * n) h (3 * k + 2) (by omega)
  have l1 := MonotonicReadings.le env.now (3 * n) h (3 * k + 1) (by omega) (3 * k) (by omega)
  have l2 := MonotonicReadings.le env.now (3 * n) h (3 * k + 2) (by omega) (3 * k + 1)
    (by omega)
  have s1 : elapsed1At env k = env.now (3 * k + 1) - env.now (3 * k) :=
    Sub_of_le _ _ r0.1 l1 r1.2
  have s2 : elapsed2At env k = env.now (3 * k + 2) - env.now (3 * k + 1) :=
    Sub_of_le _ _ r1.1 l2 r2.2
  refine ⟨s1, s2, ?_, ?_⟩
  · rw [s1]; omega
  · rw [s2]; omega

/-- The two sums of elapsed times are non-negative and together at most the
time between the first and the last reading. -/
theorem elapsed_sums_bound (env : Env) (n : Nat) (h : MonotonicReadings env.now (3 * n)) :
    ∀ m, m ≤ n →
      0 ≤ ∑ k in Finset.range m, elapsed1At env k ∧
      0 ≤ ∑ k in Finset.range m, elapsed2At env k ∧
      (∑ k in Finset.range m, elapsed1At env k) + (∑ k in Finset.range m, elapsed2At env k)
        ≤ env.now (3 * m) - env.now 0 := by
  intro m
  induction m with
  | zero => intro _; simp
  | succ m ih =>
    intro hm
    obtain ⟨a1, a2, a3⟩ := ih (by omega)
    obtain ⟨e1, e2, p1, p2⟩ := elapsed_of_monotonic env n h m (by omega)
    have l3 := MonotonicReadings.le env.now (3 * n) h (3 * (m + 1)) (by omega) (3 * m + 2)
      (by omega)
    rw [Finset.sum_range_succ, Finset.sum_range_succ]
    refine ⟨by omega, by omega, ?_⟩
    rw [e1, e2]
    omega

/-- The accumulators after `n` completed iterations against a monotonic clock:
the exact sums, without wrap-around. -/
theorem totals_of_monotonic (env : Env) (s : Int) (n : Nat)
    (hrun : (loop env n s RunState.init).1.outcome = Outcome.ok)
    (hclock : MonotonicReadings env.now (3 * n)) :
    (loop env n s RunState.init).2.total1 = ∑ k in Finset.range n, elapsed1At env k ∧
    (loop env n s RunState.init).2.total2 = ∑ k in Finset.range n, elapsed2At env k := by
  have hst := loop_state env n s RunState.init (by rfl) (by rfl) hrun
  obtain ⟨a1, a2, a3⟩ := elapsed_sums_bound env n hclock n (le_refl n)
  have top := (MonotonicReadings.range env.now (3 * n) hclock (3 * n) (le_refl _)).2
  have bot := hclock.1
  rw [hst]
  simp only [RunState.init, Nat.zero_add, Int.zero_add]
  constructor
  · exact wrapInt64_of_range _ (by unfold elapsed1At at a1; omega)
      (by unfold elapsed1At elapsed2At at *; omega)
  · exact wrapInt64_of_range _ (by unfold elapsed2At at a2; omega)
      (by unfold elapsed1At elapsed2At at *; omega)

/-- The accumulators after `n` completed iterations from the initial state, in
`int64` arithmetic. -/
theorem totals_wrapped (env : Env) (s : Int) (n : Nat)
    (hrun : (loop env n s RunState.init).1.outcome = Outcome.ok) :
    (loop env n s RunState.init).2.total1 =
      wrapInt64 (∑ k in Finset.range n, elapsed1At env k) ∧
    (loop env n s RunState.init).2.total2 =
      wrapInt64 (∑ k in Finset.range n, elapsed2At env k) := by
  rw [loop_state env n s RunState.init (by rfl) (by rfl) hrun]
  simp only [RunState.init, Nat.zero_add, Int.zero_add]
  exact ⟨rfl, rfl⟩

/-! ## The claims on the run -/

/-- C5: starting from `total1 = total2 = 0`, after every number `n` of
completed iterations, `total1` is the sum of the `n` values of `elapsed1` and
`total2` the sum of the `n` values of `elapsed2`, added as `time.Duration`
values (`int64`). Against the readings of a monotonic clock the elapsed times
are the plain differences `end - start` and the time after B's reply minus
`end`, they are non-negative, the sums do not wrap around, and both totals are
non-decreasing: the totals after `m ≤ n` iterations are at most the totals
after `n`. -/
theorem totals_are_sums_of_elapsed (env : Env) (s : Int) (n : Nat)
    (hrun : (loop env n s RunState.init).1.outcome = Outcome.ok) :
    ((loop env n s RunState.init).2.total1 =
        wrapInt64 (∑ k in Finset.range n, elapsed1At env k) ∧
      (loop env n s RunState.init).2.total2 =
        wrapInt64 (∑ k in Finset.range n, elapsed2At env k)) ∧
    (MonotonicReadings env.now (3 * n) →
      (loop env n s RunState.init).2.total1 = ∑ k in Finset.range n, elapsed1At env k ∧
      (loop env n s RunState.init).2.total2 = ∑ k in Finset.range n, elapsed2At env k ∧
      (∀ k, k < n →
        elapsed1At env k = env.now (3 * k + 1) - env.now (3 * k) ∧
        elapsed2At env k = env.now (3 * k + 2) - env.now (3 * k + 1) ∧
        0 ≤ elapsed1At env k ∧ 0 ≤ elapsed2At env k) ∧
      ∀ m, m ≤ n →
        (loop env m s RunState.init).2.total1 ≤ (loop env n s RunState.init).2.total1 ∧
        (loop env m s RunState.init).2.total2 ≤ (loop env n s RunState.init).2.total2) := by
  refine ⟨totals_wrapped env s n hrun, ?_⟩
  intro hclock
  obtain ⟨t1, t2⟩ := totals_of_monotonic env s n hrun hclock
  refine ⟨t1, t2, fun k hk => elapsed_of_monotonic env n hclock k hk, ?_⟩
  intro m hm
  obtain ⟨u1, u2⟩ := totals_of_monotonic env s m
    (loop_ok_of_le env n m s RunState.init hm hrun)
    (MonotonicReadings.of_le env.now (3 * m) (3 * n) hclock (by omega))
  rw [t1, t2, u1, u2]
  constructor
  · apply Finset.sum_le_sum_of_subset_of_nonneg
    · exact Finset.range_mono hm
    · intro k hk _
      exact (elapsed_of_monotonic env n hclock k (Finset.mem_range.1 hk)).2.2.1
  · apply Finset.sum_le_sum_of_subset_of_nonneg
    · exact Finset.range_mono hm
    · intro k hk _
      exact (elapsed_of_monotonic env n hclock k (Finset.mem_range.1 hk)).2.2.2

/-- C5 at a concrete input: three iterations from height 100, both clients
answering the same block, the clock advancing one nanosecond per reading. -/
theorem totals_are_sums_of_elapsed_witness :
    (loop (exEnv twoTxs twoTxs) 3 100 RunState.init).2.total1 =
      ∑ k in Finset.range 3, elapsed1At (exEnv twoTxs twoTxs) k ∧
    (loop (exEnv twoTxs twoTxs) 3 100 RunState.init).2.total2 =
      ∑ k in Finset.range 3, elapsed2At (exEnv twoTxs twoTxs) k ∧
    (∀ k, k < 3 →
      elapsed1At (exEnv twoTxs twoTxs) k =
        (exEnv twoTxs twoTxs).now (3 * k + 1) - (exEnv twoTxs twoTxs).now (3 * k) ∧
      elapsed2At (exEnv twoTxs twoTxs) k =
        (exEnv twoTxs twoTxs).now (3 * k + 2) - (exEnv twoTxs twoTxs).now (3 * k + 1) ∧
      0 ≤ elapsed1At (exEnv twoTxs twoTxs) k ∧ 0 ≤ elapsed2At (exEnv twoTxs twoTxs) k) ∧
    ∀ m, m ≤ 3 →
      (loop (exEnv twoTxs twoTxs) m 100 RunState.init).2.total1 ≤
        (loop (exEnv twoTxs twoTxs) 3 100 RunState.init).2.total1 ∧
      (loop (exEnv twoTxs twoTxs) m 100 RunState.init).2.total2 ≤
        (loop (exEnv twoTxs twoTxs) 3 100 RunState.init).2.total2 :=
  (totals_are_sums_of_elapsed (exEnv twoTxs twoTxs) 100 3
    (loop_descends (exEnv twoTxs twoTxs) 3 100 RunState.init (by norm_num) (by norm_num)
      (fun _ _ => ⟨twoTxs, twoTxs, rfl, rfl, by rfl⟩)).1).2
    ⟨by simp [exEnv], fun k _ => by simp [exEnv], by simp [exEnv]⟩

/-- C7: for every starting height `s` from which 10000 decrements stay within
`int64` (every non-negative height is one), if at each of the heights
`s, s - 1, ..., s - 9999` both clients answer and the two blocks match, then
the loop of `main` performs exactly 10000 iterations and falls through: it
prints the progress lines for `s, s - 1, ..., s - 9999` in this order, one per
iteration, and the `k`-th iteration asks client A and client B for the same
block identifier, the one of index `s - k`. The function `main` is this loop
whenever its setup succeeds, and then exits normally. -/
theorem main_visits_descending_heights (su : Startup) (env : Env) (s : Int)
    (hlo : -(2 ^ 63) + (iterationCount : Int) ≤ s) (hhi : s < 2 ^ 63)
    (hok : ∀ k : Nat, k < iterationCount → ∃ b1 b2,
      env.c1 ⟨some (s - k), none⟩ = Except.ok b1 ∧
      env.c2 ⟨some (s - k), none⟩ = Except.ok b2 ∧
      (compareBlocks b1 b2).outcome = Outcome.ok) :
    iterationCount = 10000 ∧
    (loop env iterationCount s RunState.init).1.outcome = Outcome.ok ∧
    (loop env iterationCount s RunState.init).1.trace.filterMap Event.requestOfC1 =
      (List.range 10000).map
        (fun k : Nat => (⟨some (s - k), none⟩ : PartialBlockIdentifier)) ∧
    (loop env iterationCount s RunState.init).1.trace.filterMap Event.requestOfC2 =
      (List.range 10000).map
        (fun k : Nat => (⟨some (s - k), none⟩ : PartialBlockIdentifier)) ∧
    (loop env iterationCount s RunState.init).1.trace.filterMap Event.checkingLine =
      (List.range 10000).map (fun k : Nat => s - (k : Int)) ∧
    (startup su s = none → main su env s = loop env iterationCount s RunState.init) := by
  have h := loop_descends env iterationCount s RunState.init hlo hhi hok
  refine ⟨rfl, h.1, h.2.1, h.2.2.1, h.2.2.2, ?_⟩
  intro hsu
  simp [main, hsu]

/-- C7 at a concrete input: starting height 100, a clean setup, both clients
answering the same block at every height. -/
theorem main_visits_descending_heights_witness :
    (main cleanStartup (exEnv twoTxs twoTxs) 100).1.outcome = Outcome.ok ∧
    (main cleanStartup (exEnv twoTxs twoTxs) 100).1.trace.filterMap Event.requestOfC1 =
      (List.range 10000).map
        (fun k : Nat => (⟨some (100 - k), none⟩ : PartialBlockIdentifier)) ∧
    (main cleanStartup (exEnv twoTxs twoTxs) 100).1.trace.filterMap Event.requestOfC2 =
      (List.range 10000).map
        (fun k : Nat => (⟨some (100 - k), none⟩ : PartialBlockIdentifier)) ∧
    (main cleanStartup (exEnv twoTxs twoTxs) 100).1.trace.filterMap Event.checkingLine =
      (List.range 10000).map (fun k : Nat => (100 : Int) - (k : Int)) := by
  have h := main_visits_descending_heights cleanStartup (exEnv twoTxs twoTxs) 100
    (by norm_num [iterationCount]) (by norm_num)
    (fun _ _ => ⟨twoTxs, twoTxs, rfl, rfl, by rfl⟩)
  rw [h.2.2.2.2.2 (by rfl)]
  exact ⟨h.2.1, h.2.2.1, h.2.2.2.1, h.2.2.2.2.1⟩

end Tracerdiff
